import Mathlib

/-!
Verification of the pyenvertech-evt800 client: a shallow embedding of the
packet codec (`parse_data_packet`, `parse_poll_message_packet`,
`bytes_to_u16`, `bytes_to_u32`, `safe_divide`), the frame extraction
performed inside `EnvertechEVT800._main_loop`, and the connection-lifecycle
state machine of `EnvertechEVT800._run` / `stop`.

Frames are byte lists (`List Nat`, each element a byte value `< 256`);
Python floats are modelled as rationals (`ℚ`); a Python dict is modelled as
an association list in insertion order.
-/

namespace EVT800

/-- Indexing a byte buffer, as `data[i]` on positions known to be in range. -/
def byte (data : List Nat) (i : Nat) : Nat := data.getD i 0

/-- `bytes_to_u16` from the source: `(b1 << 8) | b2`. -/
def bytes_to_u16 (b1 b2 : Nat) : Nat := (b1 <<< 8) ||| b2

/-- `bytes_to_u32` from the source: `(b1 << 24) | (b2 << 16) | (b3 << 8) | b4`. -/
def bytes_to_u32 (b1 b2 b3 b4 : Nat) : Nat :=
  (b1 <<< 24) ||| (b2 <<< 16) ||| (b3 <<< 8) ||| b4

/-- `safe_divide` from the source: returns `numerator / denominator`, or `0`
when the numerator is `None`, the denominator is `None`, or the denominator
is `0`.  `None` arguments are modelled by `Option.none`. -/
def safe_divide : Option ℚ → Option ℚ → ℚ
  | none, _ => 0
  | _, none => 0
  | some n, some d => if d = 0 then 0 else n / d

/-- An uppercase hexadecimal digit, as used by Python's `"%X"` formatting. -/
def hexDigitU (n : Nat) : Char :=
  if n < 10 then Char.ofNat (48 + n) else Char.ofNat (55 + n)

/-- A lowercase hexadecimal digit, as used by Python's `bytes.hex()`. -/
def hexDigitL (n : Nat) : Char :=
  if n < 10 then Char.ofNat (48 + n) else Char.ofNat (87 + n)

/-- Uppercase hexadecimal digits, most significant first, structurally
recursive on a fuel argument (`n` has at most `fuel` hex digits whenever
`n < 16 ^ fuel`, so the `fuel = 0` base case is never reached from
`toHexU`). -/
def toHexUAux : Nat → Nat → List Char
  | 0, _ => []
  | fuel + 1, n =>
    if n < 16 then [hexDigitU n]
    else toHexUAux fuel (n / 16) ++ [hexDigitU (n % 16)]

/-- Uppercase hexadecimal digits of `n`, most significant first (at least
one digit, as in Python's `"%X"`). -/
def toHexU (n : Nat) : List Char := toHexUAux (n + 1) n

/-- Python's `f"{n:02X}"`: uppercase hexadecimal, zero-padded to width 2. -/
def fmt02X (n : Nat) : String :=
  let ds := toHexU n
  String.mk (List.replicate (2 - ds.length) '0' ++ ds)

/-- Python's `bytes.hex()`: two lowercase hexadecimal characters per byte. -/
def bytesHex : List Nat → List Char
  | [] => []
  | b :: rest => hexDigitL (b / 16) :: hexDigitL (b % 16) :: bytesHex rest

/-- `parse_poll_message_packet` from the source: requires exactly 32 bytes
(else returns `""`) and returns `data.hex()[12:20]`. -/
def parse_poll_message_packet (data : List Nat) : String :=
  if data.length ≠ 32 then ""
  else String.mk (((bytesHex data).drop 12).take 8)

/-- A value stored in the decoded-telemetry dict: a Python int, float
(modelled as `ℚ`) or string. -/
inductive PVal
  | n (v : Nat)
  | f (v : ℚ)
  | s (v : String)
deriving DecidableEq, Repr

/-- `parse_data_packet` from the source: on input of at least 86 bytes,
builds the telemetry dict (here: an association list in the source's
insertion order); on shorter input returns the empty dict. -/
def parse_data_packet (data : List Nat) : List (String × PVal) :=
  if data.length < 86 then []
  else
    let id_1 := byte data 20 * 1000000 + byte data 21 * 10000 +
      byte data 22 * 100 + byte data 23
    let id_2 := byte data 52 * 1000000 + byte data 53 * 10000 +
      byte data 54 * 100 + byte data 55
    let sw_version := fmt02X (byte data 24) ++ "." ++ fmt02X (byte data 25)
    let input_voltage_1 : ℚ :=
      (bytes_to_u16 (byte data 26) (byte data 27) : ℚ) * 64 / 32768
    let input_voltage_2 : ℚ :=
      (bytes_to_u16 (byte data 58) (byte data 59) : ℚ) * 64 / 32768
    let power_1 : ℚ :=
      (bytes_to_u16 (byte data 28) (byte data 29) : ℚ) * 512 / 32768
    let power_2 : ℚ :=
      (bytes_to_u16 (byte data 60) (byte data 61) : ℚ) * 512 / 32768
    let ac_voltage_1 : ℚ :=
      (bytes_to_u16 (byte data 36) (byte data 37) : ℚ) * 512 / 32768
    let ac_voltage_2 : ℚ :=
      (bytes_to_u16 (byte data 68) (byte data 69) : ℚ) * 512 / 32768
    let ac_frequency_1 : ℚ :=
      (bytes_to_u16 (byte data 38) (byte data 39) : ℚ) * 128 / 32768
    let ac_frequency_2 : ℚ :=
      (bytes_to_u16 (byte data 70) (byte data 71) : ℚ) * 128 / 32768
    let temperature_1 : ℚ :=
      (bytes_to_u16 (byte data 34) (byte data 35) : ℚ) * 256 / 32768 - 40
    let temperature_2 : ℚ :=
      (bytes_to_u16 (byte data 66) (byte data 67) : ℚ) * 256 / 32768 - 40
    let total_energy_1 : ℚ :=
      (bytes_to_u32 (byte data 30) (byte data 31) (byte data 32)
        (byte data 33) : ℚ) * 4 / 32768
    let total_energy_2 : ℚ :=
      (bytes_to_u32 (byte data 62) (byte data 63) (byte data 64)
        (byte data 65) : ℚ) * 4 / 32768
    let current_1 := safe_divide (some power_1) (some ac_voltage_1)
    let current_2 := safe_divide (some power_2) (some ac_voltage_2)
    [("id_1", .n id_1), ("id_2", .n id_2), ("sw_version", .s sw_version),
     ("input_voltage_1", .f input_voltage_1),
     ("input_voltage_2", .f input_voltage_2),
     ("power_1", .f power_1), ("power_2", .f power_2),
     ("ac_voltage_1", .f ac_voltage_1), ("ac_voltage_2", .f ac_voltage_2),
     ("ac_frequency_1", .f ac_frequency_1),
     ("ac_frequency_2", .f ac_frequency_2),
     ("temperature_1", .f temperature_1), ("temperature_2", .f temperature_2),
     ("total_energy_1", .f total_energy_1),
     ("total_energy_2", .f total_energy_2),
     ("current_1", .f current_1), ("current_2", .f current_2)]

/-- `buffer.find(b"\x68\x00")`: index of the first adjacent pair
`0x68, 0x00` in the buffer, or `none`. -/
def find68_00 : List Nat → Option Nat
  | a :: b :: rest =>
    if a = 0x68 ∧ b = 0x00 then some 0
    else (find68_00 (b :: rest)).map (· + 1)
  | _ => none

/-- `s.find(b"\x16")` on a suffix: index of the first `0x16` byte. -/
def find16 : List Nat → Option Nat
  | [] => none
  | b :: rest => if b = 0x16 then some 0 else (find16 rest).map (· + 1)

/-- Frame extraction as performed in `_main_loop`:
`start = buffer.find(b"\x68\x00")`; if found,
`end = buffer.find(b"\x16", start)`; if found, the slice
`buffer[start : end + 1]`; otherwise `none` (the loop `continue`s). -/
def frame_extract (buffer : List Nat) : Option (List Nat) :=
  match find68_00 buffer with
  | none => none
  | some s =>
    match find16 (buffer.drop s) with
    | none => none
    | some k => some ((buffer.drop s).take (k + 1))

/-- The acknowledgment built in `_main_loop`:
`68 00 10 68 10 50` + `packet[20:24]` + `00 00 00 00 78 16`. -/
def ack_bytes (packet : List Nat) : List Nat :=
  [0x68, 0x00, 0x10, 0x68, 0x10, 0x50] ++ (packet.drop 20).take 4 ++
    [0x00, 0x00, 0x00, 0x00, 0x78, 0x16]

/-- The externally visible effects of one iteration of the read loop in
`_main_loop` on a non-empty buffer: the dict passed to `on_data` (if any),
the serial number stored (if any), and the ACK written (if any). -/
structure IterResult where
  emitted : Option (List (String × PVal))
  serialSet : Option String
  ack : Option (List Nat)
deriving DecidableEq, Repr

/-- One iteration of the read loop in `_main_loop`: extract a frame
(`continue` on failure, i.e. no effects), parse it as telemetry when it is
exactly 86 bytes or as a poll message when exactly 32 bytes, call `on_data`
when the telemetry dict is non-empty, and send the ACK when the frame has
at least 24 bytes. -/
def process_buffer (buffer : List Nat) : IterResult :=
  match frame_extract buffer with
  | none => ⟨none, none, none⟩
  | some packet =>
    let data := if packet.length = 86 then parse_data_packet packet else []
    let serial :=
      if packet.length = 86 then none
      else if packet.length = 32 then some (parse_poll_message_packet packet)
      else none
    ⟨if data = [] then none else some data,
     serial,
     if 24 ≤ packet.length then some (ack_bytes packet) else none⟩

/-- How one call to `_main_loop` terminates: the connection attempt raises
an `OSError` (`connectFail`), the session ends by a clean return — empty
read or the stop event observed — (`cleanExit`), or a timeout / `OSError`
is raised after the connection succeeded (`errorAfterConnect`). -/
inductive SessionOutcome
  | connectFail
  | cleanExit
  | errorAfterConnect
deriving DecidableEq, Repr

/-- The manager state mutated by `_run` / `_main_loop`: the `online` flag
and the `_unavailable_logged` dedup flag. -/
structure RunState where
  online : Bool
  unavailableLogged : Bool
deriving DecidableEq, Repr

/-- The state when `_main_loop` returns or raises, and whether it raised:
on `connectFail` nothing was mutated; on a clean exit the session set
`online := True` and cleared the dedup flag at connect, then set
`online := False` before returning; on an error after connect the state at
the raise point still has `online = True` and the dedup flag cleared. -/
def main_loop_result (s : RunState) : SessionOutcome → RunState × Bool
  | .connectFail => (s, true)
  | .cleanExit => (⟨false, false⟩, false)
  | .errorAfterConnect => (⟨true, false⟩, true)

/-- One iteration of the `while` loop in `_run`: run `_main_loop`; if it
raised a timeout or `OSError`, set `online := False`, warn once per outage
(setting the dedup flag), and sleep 60 seconds unless the stop event is
set.  Returns the new state, the seconds slept before the next connection
attempt, and whether the unavailability warning was logged. -/
def runIter (s : RunState) (o : SessionOutcome) (stopSet : Bool) :
    RunState × Nat × Bool :=
  let r := main_loop_result s o
  if r.2 then
    (⟨false, true⟩, if stopSet then 0 else 60, !r.1.unavailableLogged)
  else
    (r.1, 0, false)

/-- The manager state after the background task runs a finite number of
`_run` iterations, each described by its session outcome and by whether
the stop event was set when the exception handler checked it. -/
def runTask (init : RunState) (trace : List (SessionOutcome × Bool)) :
    RunState :=
  trace.foldl (fun s p => (runIter s p.1 p.2).1) init

/-- The value of `online` observed by `stop()` after awaiting the
background task: if `start()` was never called there is no task to await
and `online` keeps its initial value `False`; otherwise it is the `online`
field after the task's final iteration (initially `False`, since `start`
does not set it). -/
def stop_result_online (started : Bool) (logged : Bool)
    (trace : List (SessionOutcome × Bool)) : Bool :=
  if started then (runTask ⟨false, logged⟩ trace).online else false

/-- Spec-side formula: the big-endian unsigned 16-bit value at offset `i`. -/
def specU16 (d : List Nat) (i : Nat) : Nat := 256 * byte d i + byte d (i + 1)

/-- Spec-side formula: the big-endian unsigned 32-bit value at offset `i`. -/
def specU32 (d : List Nat) (i : Nat) : Nat :=
  16777216 * byte d i + 65536 * byte d (i + 1) + 256 * byte d (i + 2) +
    byte d (i + 3)

/-- Spec-side formula: a scaled 16-bit field — the big-endian unsigned
16-bit value at offset `i` times `scale`, divided by 32768. -/
def specScaled (d : List Nat) (i scale : Nat) : ℚ :=
  (specU16 d i : ℚ) * scale / 32768

/-- Spec-side formula: a byte as exactly two uppercase hexadecimal digits. -/
def specHex2 (n : Nat) : String :=
  String.mk [hexDigitU (n / 16), hexDigitU (n % 16)]

/-- Spec-side formula: the lowercase hexadecimal representation of a list
of bytes (the encoding used by Python's `bytes.hex()`). -/
def specHexOf (l : List Nat) : String := String.mk (bytesHex l)

/-- The 17 keys of a decoded telemetry dict, in insertion order. -/
def keys17 : List String :=
  ["id_1", "id_2", "sw_version", "input_voltage_1", "input_voltage_2",
   "power_1", "power_2", "ac_voltage_1", "ac_voltage_2", "ac_frequency_1",
   "ac_frequency_2", "temperature_1", "temperature_2", "total_energy_1",
   "total_energy_2", "current_1", "current_2"]

/-- A byte list with no occurrence of the 2-byte start marker
`0x68 0x00` at adjacent positions. -/
def noStart : List Nat → Prop
  | a :: b :: rest => ¬(a = 0x68 ∧ b = 0x00) ∧ noStart (b :: rest)
  | _ => True

/-- The 86-byte telemetry packet from the repository's test suite
(`test_envertech_evt800_data_package_lifecycle`). -/
def T86 : List Nat :=
  [104, 0, 86, 104, 16, 4, 49, 82, 88, 32, 122, 0, 122, 1, 0, 0, 0, 0, 0, 0,
   49, 82, 88, 32, 122, 122, 64, 176, 45, 134, 0, 0, 186, 251, 46, 140, 60,
   73, 49, 254, 0, 0, 0, 0, 0, 0, 0, 0, 0, 0, 0, 0, 49, 82, 88, 33, 122,
   122, 49, 49, 1, 123, 0, 0, 14, 74, 42, 179, 60, 73, 49, 254, 2, 2, 0, 0,
   0, 0, 0, 0, 0, 0, 0, 0, 239, 22]

/-- The 32-byte poll-message packet from the repository's test suite
(`test_envertech_evt800_pool_message_lifecycle`). -/
def P32 : List Nat :=
  [104, 0, 32, 104, 16, 6, 49, 82, 88, 32, 0, 0, 0, 0, 0, 1, 75, 0, 0, 231,
   1, 0, 0, 1, 5, 0, 0, 0, 0, 0, 144, 22]

/-! ### Helper lemmas -/

theorem byte_lt (d : List Nat) (hb : ∀ b ∈ d, b < 256) (i : Nat)
    (hi : i < d.length) : byte d i < 256 := by
  rw [byte, List.getD_eq_getElem d 0 hi]
  exact hb _ (List.getElem_mem hi)

theorem bytes_to_u16_eq (b1 b2 : Nat) (h2 : b2 < 256) :
    bytes_to_u16 b1 b2 = 256 * b1 + b2 := by
  have h2' : b2 < 2 ^ 8 := by omega
  calc bytes_to_u16 b1 b2 = 2 ^ 8 * b1 ||| b2 := by
        unfold bytes_to_u16; rw [Nat.shiftLeft_eq, Nat.mul_comm]
    _ = 2 ^ 8 * b1 + b2 := (Nat.mul_add_lt_is_or h2' b1).symm
    _ = 256 * b1 + b2 := by norm_num

theorem bytes_to_u32_eq (b1 b2 b3 b4 : Nat) (h2 : b2 < 256) (h3 : b3 < 256)
    (h4 : b4 < 256) :
    bytes_to_u32 b1 b2 b3 b4 = 16777216 * b1 + 65536 * b2 + 256 * b3 + b4 := by
  have e1 : b1 <<< 24 = 2 ^ 24 * b1 := by rw [Nat.shiftLeft_eq, Nat.mul_comm]
  have e2 : b2 <<< 16 = 2 ^ 16 * b2 := by rw [Nat.shiftLeft_eq, Nat.mul_comm]
  have e3 : b3 <<< 8 = 2 ^ 8 * b3 := by rw [Nat.shiftLeft_eq, Nat.mul_comm]
  have h2' : 2 ^ 16 * b2 < 2 ^ 24 := by norm_num; omega
  have h3' : 2 ^ 8 * b3 < 2 ^ 16 := by norm_num; omega
  have h4' : b4 < 2 ^ 8 := by omega
  unfold bytes_to_u32
  rw [e1, e2, e3, ← Nat.mul_add_lt_is_or h2' b1]
  have f1 : 2 ^ 24 * b1 + 2 ^ 16 * b2 = 2 ^ 16 * (2 ^ 8 * b1 + b2) := by ring
  rw [f1, ← Nat.mul_add_lt_is_or h3' _]
  have f2 : 2 ^ 16 * (2 ^ 8 * b1 + b2) + 2 ^ 8 * b3 =
      2 ^ 8 * (2 ^ 16 * b1 + 2 ^ 8 * b2 + b3) := by ring
  rw [f2, ← Nat.mul_add_lt_is_or h4' _]
  norm_num; ring

theorem u16_cast (d : List Nat) (i : Nat) (hb : ∀ b ∈ d, b < 256)
    (hi : i + 1 < d.length) :
    (bytes_to_u16 (byte d i) (byte d (i + 1)) : ℚ) = specU16 d i := by
  rw [bytes_to_u16_eq _ _ (byte_lt d hb (i + 1) hi), specU16]

theorem u32_cast (d : List Nat) (i : Nat) (hb : ∀ b ∈ d, b < 256)
    (hi : i + 3 < d.length) :
    (bytes_to_u32 (byte d i) (byte d (i + 1)) (byte d (i + 2))
      (byte d (i + 3)) : ℚ) = specU32 d i := by
  rw [bytes_to_u32_eq _ _ _ _ (byte_lt d hb (i + 1) (by omega))
    (byte_lt d hb (i + 2) (by omega)) (byte_lt d hb (i + 3) hi), specU32]

theorem fmt02X_eq_specHex2 (n : Nat) (h : n < 256) : fmt02X n = specHex2 n := by
  by_cases h16 : n < 16
  · have hq : n / 16 = 0 := by omega
    have hm : n % 16 = n := by omega
    have h0 : hexDigitU 0 = '0' := by decide
    simp [fmt02X, toHexU, toHexUAux, h16, specHex2, hq, hm, h0]
  · obtain ⟨m, rfl⟩ : ∃ m, n = m + 1 := ⟨n - 1, by omega⟩
    have hq : (m + 1) / 16 < 16 := by omega
    simp [fmt02X, toHexU, toHexUAux, h16, hq, specHex2]

theorem bytesHex_append (a b : List Nat) :
    bytesHex (a ++ b) = bytesHex a ++ bytesHex b := by
  induction a with
  | nil => simp [bytesHex]
  | cons x t ih => simp [bytesHex, ih]

theorem bytesHex_length (l : List Nat) : (bytesHex l).length = 2 * l.length := by
  induction l with
  | nil => simp [bytesHex]
  | cons x t ih => simp [bytesHex, ih]; omega

theorem find16_cons_ne (b : Nat) (t : List Nat) (hb : b ≠ 0x16) :
    find16 (b :: t) = (find16 t).map (· + 1) := by
  simp [find16, hb]

theorem find16_none (l : List Nat) (h : ∀ x ∈ l, x ≠ 0x16) : find16 l = none := by
  induction l with
  | nil => simp [find16]
  | cons b t ih =>
    have hb : b ≠ 0x16 := h b (by simp)
    rw [find16_cons_ne b t hb, ih (fun x hx => h x (by simp [hx]))]
    rfl

theorem find16_append (l r : List Nat) (h : (0x16 : Nat) ∉ l) :
    find16 (l ++ r) = (find16 r).map (· + l.length) := by
  induction l with
  | nil => cases h : find16 r <;> simp [h]
  | cons b t ih =>
    have hb : b ≠ 0x16 := by intro e; exact h (by simp [e])
    rw [List.cons_append, find16_cons_ne b _ hb, ih (fun hx => h (by simp [hx]))]
    cases h : find16 r
    · simp [h]
    · simp [h]; omega

theorem find68_00_none (l : List Nat) (h : noStart l) : find68_00 l = none := by
  induction l with
  | nil => simp [find68_00]
  | cons a t ih =>
    cases t with
    | nil => simp [find68_00]
    | cons c t' =>
      obtain ⟨h1, h2⟩ := h
      rw [find68_00, if_neg h1, ih h2]
      rfl

theorem find68_00_prefix (n1 rest : List Nat) (h : noStart n1) :
    find68_00 (n1 ++ 0x68 :: 0x00 :: rest) = some n1.length := by
  induction n1 with
  | nil => simp [find68_00]
  | cons a t ih =>
    cases t with
    | nil => simp [find68_00]
    | cons c t' =>
      obtain ⟨h1, h2⟩ := h
      rw [List.cons_append, List.cons_append, find68_00, if_neg h1]
      rw [← List.cons_append, ih h2]
      simp

theorem frame_extract_of_markers (n1 mid n2 : List Nat) (h1 : noStart n1)
    (hm : (0x16 : Nat) ∉ mid) :
    frame_extract (n1 ++ (0x68 :: 0x00 :: mid ++ [0x16]) ++ n2) =
      some (0x68 :: 0x00 :: mid ++ [0x16]) := by
  have hassoc : n1 ++ (0x68 :: 0x00 :: mid ++ [0x16]) ++ n2 =
      n1 ++ 0x68 :: 0x00 :: ((mid ++ [0x16]) ++ n2) := by
    simp
  have hstart : find68_00 (n1 ++ (0x68 :: 0x00 :: mid ++ [0x16]) ++ n2) =
      some n1.length := by
    rw [hassoc, find68_00_prefix _ _ h1]
  have hdrop : (n1 ++ (0x68 :: 0x00 :: mid ++ [0x16]) ++ n2).drop n1.length =
      0x68 :: 0x00 :: ((mid ++ [0x16]) ++ n2) := by
    rw [hassoc, List.drop_left]
  have hmid : find16 ((mid ++ [0x16]) ++ n2) = some mid.length := by
    rw [List.append_assoc, find16_append mid _ hm]
    simp [find16]
  have hend : find16 (0x68 :: 0x00 :: ((mid ++ [0x16]) ++ n2)) =
      some (mid.length + 2) := by
    rw [find16_cons_ne _ _ (by norm_num), find16_cons_ne _ _ (by norm_num), hmid]
    rfl
  rw [frame_extract, hstart]
  simp only [hdrop, hend]
  rw [show (0x68 :: 0x00 :: ((mid ++ [0x16]) ++ n2)) =
      (0x68 :: 0x00 :: mid ++ [0x16]) ++ n2 by simp]
  rw [show mid.length + 2 + 1 = (0x68 :: 0x00 :: mid ++ [0x16]).length by simp]
  rw [List.take_left]

theorem process_buffer_emit_86 (buffer pkt : List Nat)
    (hfe : frame_extract buffer = some pkt) (h86 : pkt.length = 86) :
    (process_buffer buffer).emitted = some (parse_data_packet pkt) := by
  have hne : parse_data_packet pkt ≠ [] := by
    simp only [parse_data_packet, if_neg (by omega : ¬ pkt.length < 86)]
    simp
  simp [process_buffer, hfe, h86, hne]

theorem runIter_online (s : RunState) (o : SessionOutcome) (b : Bool) :
    (runIter s o b).1.online = false := by
  cases o <;> simp [runIter, main_loop_result]

theorem runTask_online (trace : List (SessionOutcome × Bool)) (s : RunState)
    (h : s.online = false) : (runTask s trace).online = false := by
  induction trace generalizing s with
  | nil => exact h
  | cons p t ih =>
    rw [runTask, List.foldl_cons]
    exact ih _ (runIter_online _ _ _)

/-! ### Claim theorems -/

/-- C1: on every frame of at least 86 bytes, `parse_data_packet` produces
field values equal to the documented formulas: the decimal-coded ids from
bytes 20-23 and 52-55, the firmware version as two-digit uppercase hex of
bytes 24-25 separated by a dot, each scaled 16-bit field as the big-endian
unsigned 16-bit value at its documented offset times its per-field scale
(input voltage 64, power 512, AC voltage 512, frequency 128, temperature
256 with 40 subtracted afterwards) divided by 32768, and total energy as
the big-endian unsigned 32-bit value times 4 divided by 32768. -/
theorem parse_data_packet_fields (d : List Nat) (h : 86 ≤ d.length)
    (hb : ∀ b ∈ d, b < 256) :
    List.lookup "id_1" (parse_data_packet d) =
      some (.n (byte d 20 * 1000000 + byte d 21 * 10000 +
        byte d 22 * 100 + byte d 23)) ∧
    List.lookup "id_2" (parse_data_packet d) =
      some (.n (byte d 52 * 1000000 + byte d 53 * 10000 +
        byte d 54 * 100 + byte d 55)) ∧
    List.lookup "sw_version" (parse_data_packet d) =
      some (.s (specHex2 (byte d 24) ++ "." ++ specHex2 (byte d 25))) ∧
    List.lookup "input_voltage_1" (parse_data_packet d) =
      some (.f (specScaled d 26 64)) ∧
    List.lookup "input_voltage_2" (parse_data_packet d) =
      some (.f (specScaled d 58 64)) ∧
    List.lookup "power_1" (parse_data_packet d) =
      some (.f (specScaled d 28 512)) ∧
    List.lookup "power_2" (parse_data_packet d) =
      some (.f (specScaled d 60 512)) ∧
    List.lookup "ac_voltage_1" (parse_data_packet d) =
      some (.f (specScaled d 36 512)) ∧
    List.lookup "ac_voltage_2" (parse_data_packet d) =
      some (.f (specScaled d 68 512)) ∧
    List.lookup "ac_frequency_1" (parse_data_packet d) =
      some (.f (specScaled d 38 128)) ∧
    List.lookup "ac_frequency_2" (parse_data_packet d) =
      some (.f (specScaled d 70 128)) ∧
    List.lookup "temperature_1" (parse_data_packet d) =
      some (.f (specScaled d 34 256 - 40)) ∧
    List.lookup "temperature_2" (parse_data_packet d) =
      some (.f (specScaled d 66 256 - 40)) ∧
    List.lookup "total_energy_1" (parse_data_packet d) =
      some (.f ((specU32 d 30 : ℚ) * 4 / 32768)) ∧
    List.lookup "total_energy_2" (parse_data_packet d) =
      some (.f ((specU32 d 62 : ℚ) * 4 / 32768)) := by
  have l26 : (bytes_to_u16 (byte d 26) (byte d 27) : ℚ) = specU16 d 26 :=
    u16_cast d 26 hb (by omega)
  have l58 : (bytes_to_u16 (byte d 58) (byte d 59) : ℚ) = specU16 d 58 :=
    u16_cast d 58 hb (by omega)
  have l28 : (bytes_to_u16 (byte d 28) (byte d 29) : ℚ) = specU16 d 28 :=
    u16_cast d 28 hb (by omega)
  have l60 : (bytes_to_u16 (byte d 60) (byte d 61) : ℚ) = specU16 d 60 :=
    u16_cast d 60 hb (by omega)
  have l36 : (bytes_to_u16 (byte d 36) (byte d 37) : ℚ) = specU16 d 36 :=
    u16_cast d 36 hb (by omega)
  have l68 : (bytes_to_u16 (byte d 68) (byte d 69) : ℚ) = specU16 d 68 :=
    u16_cast d 68 hb (by omega)
  have l38 : (bytes_to_u16 (byte d 38) (byte d 39) : ℚ) = specU16 d 38 :=
    u16_cast d 38 hb (by omega)
  have l70 : (bytes_to_u16 (byte d 70) (byte d 71) : ℚ) = specU16 d 70 :=
    u16_cast d 70 hb (by omega)
  have l34 : (bytes_to_u16 (byte d 34) (byte d 35) : ℚ) = specU16 d 34 :=
    u16_cast d 34 hb (by omega)
  have l66 : (bytes_to_u16 (byte d 66) (byte d 67) : ℚ) = specU16 d 66 :=
    u16_cast d 66 hb (by omega)
  have l30 : (bytes_to_u32 (byte d 30) (byte d 31) (byte d 32)
      (byte d 33) : ℚ) = specU32 d 30 := u32_cast d 30 hb (by omega)
  have l62 : (bytes_to_u32 (byte d 62) (byte d 63) (byte d 64)
      (byte d 65) : ℚ) = specU32 d 62 := u32_cast d 62 hb (by omega)
  have s24 : fmt02X (byte d 24) = specHex2 (byte d 24) :=
    fmt02X_eq_specHex2 _ (byte_lt d hb 24 (by omega))
  have s25 : fmt02X (byte d 25) = specHex2 (byte d 25) :=
    fmt02X_eq_specHex2 _ (byte_lt d hb 25 (by omega))
  simp only [parse_data_packet, if_neg (by omega : ¬ d.length < 86)]
  refine ⟨?_, ?_, ?_, ?_, ?_, ?_, ?_, ?_, ?_, ?_, ?_, ?_, ?_, ?_, ?_⟩ <;>
    simp [List.lookup, specScaled, l26, l58, l28, l60, l36, l68, l38, l70,
      l34, l66, l30, l62, s24, s25]

/-- Witness for C1: the hypotheses hold at the test suite's 86-byte
telemetry frame. -/
theorem parse_data_packet_fields_witness :
    86 ≤ T86.length ∧
    List.lookup "id_1" (parse_data_packet T86) =
      some (.n (byte T86 20 * 1000000 + byte T86 21 * 10000 +
        byte T86 22 * 100 + byte T86 23)) :=
  ⟨by decide, (parse_data_packet_fields T86 (by decide) (by decide)).1⟩

/-- C2 counterexample: a session that ends by clean exit (the peer closed
the stream), with stop not requested, is followed by no backoff sleep at
all (0 seconds, not the claimed 60): `_main_loop` returns normally, so the
60-second sleep in the exception handler of `_run` is skipped and the next
connection attempt happens immediately. -/
theorem run_backoff_cex :
    (runIter ⟨false, false⟩ .cleanExit false).2.1 = 0 ∧
    ¬ (runIter ⟨false, false⟩ .cleanExit false).2.1 = 60 := by
  decide

/-- C2 (amended): every session termination leaves `online = false`; after
a termination by timeout or OS-level connection error with stop not
requested, the manager waits the fixed 60-second backoff before the next
attempt (no exponential backoff, no retry cap); after a clean exit (or
when stop was requested) it does not sleep and retries immediately. -/
theorem run_backoff (s : RunState) (o : SessionOutcome) (stopSet : Bool) :
    (runIter s o stopSet).1.online = false ∧
    (o ≠ .cleanExit → stopSet = false → (runIter s o stopSet).2.1 = 60) ∧
    (o = .cleanExit → (runIter s o stopSet).2.1 = 0) ∧
    (stopSet = true → (runIter s o stopSet).2.1 = 0) := by
  cases o <;> cases stopSet <;> simp [runIter, main_loop_result]

/-- Witness for C2 (amended): an error-terminated session with stop not
requested sleeps exactly 60 seconds and is offline. -/
theorem run_backoff_witness :
    (runIter ⟨false, false⟩ .errorAfterConnect false).1.online = false ∧
    (runIter ⟨false, false⟩ .errorAfterConnect false).2.1 = 60 :=
  ⟨(run_backoff ⟨false, false⟩ .errorAfterConnect false).1,
   (run_backoff ⟨false, false⟩ .errorAfterConnect false).2.1 (by decide) rfl⟩

/-- C3: in the session loop an acknowledgment is written if and only if
the extracted frame has at least 24 bytes, independent of recognition or
decoding, and the acknowledgment is exactly the 16 bytes
`68 00 10 68 10 50` + frame bytes 20-23 + `00 00 00 00 78 16`; for frames
shorter than 24 bytes no acknowledgment is sent. -/
theorem ack_iff_24 (buffer : List Nat) :
    (frame_extract buffer = none → (process_buffer buffer).ack = none) ∧
    (∀ pkt, frame_extract buffer = some pkt →
      ((process_buffer buffer).ack ≠ none ↔ 24 ≤ pkt.length) ∧
      (24 ≤ pkt.length → (process_buffer buffer).ack =
        some ([0x68, 0x00, 0x10, 0x68, 0x10, 0x50] ++ (pkt.drop 20).take 4 ++
          [0x00, 0x00, 0x00, 0x00, 0x78, 0x16]))) := by
  constructor
  · intro h; simp [process_buffer, h]
  · intro pkt h
    constructor
    · by_cases h24 : 24 ≤ pkt.length <;> simp [process_buffer, h, h24]
    · intro h24; simp [process_buffer, h, h24, ack_bytes]

/-- Witness for C3: the 32-byte poll frame (≥ 24 bytes, not decoded as
telemetry) still gets the 16-byte acknowledgment. -/
theorem ack_iff_24_witness :
    (process_buffer P32).ack =
      some ([0x68, 0x00, 0x10, 0x68, 0x10, 0x50] ++ (P32.drop 20).take 4 ++
        [0x00, 0x00, 0x00, 0x00, 0x78, 0x16]) :=
  ((ack_iff_24 P32).2 P32 (by decide)).2 (by decide)

/-- C4: `frame_extract` returns the inclusive slice from the first
occurrence of the start marker `68 00` through the first `16` byte at or
after it; it returns none when no start marker exists, or when no end
marker exists at or after the start; and for a buffer holding exactly one
well-formed frame (start marker, interior free of the end-marker byte, end
marker) surrounded by noise free of the start marker, the result is
exactly the marker-bounded frame. -/
theorem frame_extract_spec :
    (∀ n1 mid n2 : List Nat, noStart n1 → (0x16 : Nat) ∉ mid →
      frame_extract (n1 ++ (0x68 :: 0x00 :: mid ++ [0x16]) ++ n2) =
        some (0x68 :: 0x00 :: mid ++ [0x16])) ∧
    (∀ buffer : List Nat, noStart buffer → frame_extract buffer = none) ∧
    (∀ (buffer : List Nat) (s : Nat), find68_00 buffer = some s →
      (∀ x ∈ buffer.drop s, x ≠ 0x16) → frame_extract buffer = none) := by
  refine ⟨frame_extract_of_markers, ?_, ?_⟩
  · intro buffer h
    rw [frame_extract, find68_00_none _ h]
  · intro buffer s hs h16
    rw [frame_extract, hs]
    simp only [find16_none _ h16]

/-- Witness for C4: a small frame with noise on both sides is extracted
exactly; a buffer with no start marker and one with a start marker but no
end marker yield none. -/
theorem frame_extract_spec_witness :
    frame_extract ([9, 9] ++ (0x68 :: 0x00 :: [1, 2] ++ [0x16]) ++ [7]) =
      some (0x68 :: 0x00 :: [1, 2] ++ [0x16]) ∧
    frame_extract [1, 2, 3] = none ∧
    frame_extract [0x68, 0x00, 5] = none :=
  ⟨frame_extract_spec.1 [9, 9] [1, 2] [7] (by simp [noStart]) (by decide),
   frame_extract_spec.2.1 [1, 2, 3] (by simp [noStart]),
   frame_extract_spec.2.2 [0x68, 0x00, 5] 0 (by decide) (by decide)⟩

/-- C5: `parse_data_packet` on any input shorter than 86 bytes returns the
empty dict; being a total function of the byte list, it never raises. -/
theorem parse_data_packet_short (d : List Nat) (h : d.length < 86) :
    parse_data_packet d = [] := by
  simp [parse_data_packet, h]

/-- Witness for C5: the test suite's 10-byte input yields the empty dict. -/
theorem parse_data_packet_short_witness :
    (List.replicate 10 0).length < 86 ∧
    parse_data_packet (List.replicate 10 0) = [] :=
  ⟨by decide, parse_data_packet_short (List.replicate 10 0) (by decide)⟩

/-- C6: `parse_poll_message_packet` on an input of exactly 32 bytes
returns the 8-character hexadecimal representation of frame bytes 6-9
(characters 12-20 of the hex dump are exactly the hex encoding of bytes
6-9); on input of any other length it returns the empty string. -/
theorem parse_poll_spec (d : List Nat) :
    (d.length ≠ 32 → parse_poll_message_packet d = "") ∧
    (d.length = 32 →
      parse_poll_message_packet d = specHexOf ((d.drop 6).take 4) ∧
      (parse_poll_message_packet d).length = 8) := by
  constructor
  · intro h; simp [parse_poll_message_packet, h]
  · intro h
    have e1 : (bytesHex (d.take 6)).length = 12 := by
      rw [bytesHex_length]; simp [List.length_take]; omega
    have e2 : (bytesHex ((d.drop 6).take 4)).length = 8 := by
      rw [bytesHex_length]; simp [List.length_take]; omega
    have split1 : bytesHex d = bytesHex (d.take 6) ++ bytesHex (d.drop 6) := by
      rw [← bytesHex_append, List.take_append_drop]
    have split2 : bytesHex (d.drop 6) =
        bytesHex ((d.drop 6).take 4) ++ bytesHex ((d.drop 6).drop 4) := by
      rw [← bytesHex_append, List.take_append_drop]
    have key : parse_poll_message_packet d =
        String.mk (bytesHex ((d.drop 6).take 4)) := by
      rw [parse_poll_message_packet, if_neg (by omega), split1, ← e1,
        List.drop_left, split2, ← e2, List.take_left]
    refine ⟨key, ?_⟩
    rw [key]
    simpa using e2

/-- Witness for C6: the test suite's 32-byte poll frame decodes to the hex
of its bytes 6-9, and a 1-byte input yields the empty string. -/
theorem parse_poll_spec_witness :
    parse_poll_message_packet P32 = specHexOf ((P32.drop 6).take 4) ∧
    parse_poll_message_packet [0] = "" :=
  ⟨((parse_poll_spec P32).2 (by decide)).1, (parse_poll_spec [0]).1 (by decide)⟩

/-- C7: `safe_divide` returns 0 when either operand is absent or the
denominator is 0 (for all numerators, including 0), returns the exact
quotient when the denominator is nonzero, and never raises; and for every
decoded telemetry frame the current of each channel is `safe_divide` of
that channel's power and AC voltage. -/
theorem safe_divide_spec :
    (∀ q : Option ℚ, safe_divide none q = 0 ∧ safe_divide q none = 0) ∧
    (∀ p : ℚ, safe_divide (some p) (some 0) = 0) ∧
    (∀ p v : ℚ, v ≠ 0 → safe_divide (some p) (some v) = p / v) ∧
    (∀ d : List Nat, 86 ≤ d.length →
      List.lookup "current_1" (parse_data_packet d) =
        some (.f (safe_divide
          (some ((bytes_to_u16 (byte d 28) (byte d 29) : ℚ) * 512 / 32768))
          (some ((bytes_to_u16 (byte d 36) (byte d 37) : ℚ) * 512 / 32768)))) ∧
      List.lookup "current_2" (parse_data_packet d) =
        some (.f (safe_divide
          (some ((bytes_to_u16 (byte d 60) (byte d 61) : ℚ) * 512 / 32768))
          (some ((bytes_to_u16 (byte d 68) (byte d 69) : ℚ) * 512 / 32768))))) := by
  refine ⟨?_, ?_, ?_, ?_⟩
  · intro q
    cases q <;> simp [safe_divide]
  · intro p; simp [safe_divide]
  · intro p v hv; simp [safe_divide, hv]
  · intro d h
    constructor <;>
      (simp only [parse_data_packet, if_neg (by omega : ¬ d.length < 86)];
        simp [List.lookup])

/-- Witness for C7: a nonzero division and the current field of the test
suite's telemetry frame. -/
theorem safe_divide_spec_witness :
    safe_divide (some (3 : ℚ)) (some 2) = 3 / 2 ∧
    List.lookup "current_1" (parse_data_packet T86) =
      some (.f (safe_divide
        (some ((bytes_to_u16 (byte T86 28) (byte T86 29) : ℚ) * 512 / 32768))
        (some ((bytes_to_u16 (byte T86 36) (byte T86 37) : ℚ) * 512 / 32768)))) :=
  ⟨safe_divide_spec.2.2.1 3 2 (by norm_num),
   (safe_divide_spec.2.2.2 T86 (by decide)).1⟩

/-- C8: a Telemetry Reading is emitted to the listener only when the
extracted frame is exactly 86 bytes long; for frames of any other length
the listener is never invoked. -/
theorem emit_only_86 (buffer : List Nat) (r : List (String × PVal))
    (h : (process_buffer buffer).emitted = some r) :
    ∃ pkt, frame_extract buffer = some pkt ∧ pkt.length = 86 := by
  cases hfe : frame_extract buffer with
  | none => simp [process_buffer, hfe] at h
  | some pkt =>
    refine ⟨pkt, rfl, ?_⟩
    by_cases h86 : pkt.length = 86
    · exact h86
    · simp [process_buffer, hfe, h86] at h

/-- Witness for C8: the test suite's 86-byte frame does reach the
listener, discharging the emission hypothesis. -/
theorem emit_only_86_witness :
    ∃ pkt, frame_extract T86 = some pkt ∧ pkt.length = 86 :=
  emit_only_86 T86 (parse_data_packet T86)
    (process_buffer_emit_86 T86 T86 (by decide) (by decide))

/-- C9: whenever `stop()` returns — after awaiting the background task if
one was started, immediately otherwise — `online` is false, for every
finite execution trace of the background loop and whether or not a session
was ever active. -/
theorem stop_online_false (started logged : Bool)
    (trace : List (SessionOutcome × Bool)) :
    stop_result_online started logged trace = false := by
  rw [stop_result_online]
  cases started with
  | false => rfl
  | true =>
    show (runTask ⟨false, logged⟩ trace).online = false
    exact runTask_online trace ⟨false, logged⟩ rfl

/-- C10: every input of at least 86 bytes parses to a dict with exactly
the 17 documented keys in insertion order, and consequently the listener
is invoked for every extracted frame of exactly 86 bytes. -/
theorem parse_keys_and_emit :
    (∀ d : List Nat, 86 ≤ d.length →
      (parse_data_packet d).map Prod.fst = keys17) ∧
    (∀ (buffer pkt : List Nat), frame_extract buffer = some pkt →
      pkt.length = 86 →
      (process_buffer buffer).emitted = some (parse_data_packet pkt)) := by
  constructor
  · intro d h
    simp only [parse_data_packet, if_neg (by omega : ¬ d.length < 86)]
    simp [keys17]
  · exact fun buffer pkt hfe h86 => process_buffer_emit_86 buffer pkt hfe h86

/-- Witness for C10: the test suite's 86-byte frame has the 17 keys and is
emitted. -/
theorem parse_keys_and_emit_witness :
    (parse_data_packet T86).map Prod.fst = keys17 ∧
    (process_buffer T86).emitted = some (parse_data_packet T86) :=
  ⟨parse_keys_and_emit.1 T86 (by decide),
   parse_keys_and_emit.2 T86 T86 (by decide) (by decide)⟩

end EVT800
